import Mathlib

/-!
Verification of the BudgetCSV CSV-processing pipeline
(backend/app/services/csv_processor.py).

The pipeline is embedded shallowly: a decoded table (the pandas DataFrame
produced by the external reading collaborator) is a declared column count
together with a list of rows, each row a list of optional text cells
(`none` models a pandas NaN cell, produced for empty cells and the
configured NA sentinels).  Monetary amounts are integers counting cents:
the source works with `Decimal` values quantized to two decimal places, so
an amount `a` cents stands for the decimal value `a / 100`.  Calendar
dates are triples of numerals.  Exceptions become an `Except` result.

The Python `Decimal` constructor is modelled on plain fixed-point literals
(optional sign, digits, at most one dot) — exponent notation and the
special values NaN and Infinity are outside the model, as are the
nanosecond range limits of pandas timestamps.  Python string trimming is
modelled over the ASCII whitespace characters.
-/

set_option autoImplicit false

namespace BudgetCSV

/-- Severity levels for validation issues (class ValidationSeverity). -/
inductive ValidationSeverity where
  | error
  | warning
  | info
deriving DecidableEq, Repr, BEq

/-- A single validation issue found during processing (class ValidationIssue). -/
structure ValidationIssue where
  row_number : Nat
  column : Option String
  severity : ValidationSeverity
  message : String
  original_value : Option String
deriving DecidableEq, Repr

/-- Python whitespace stripped by str.strip, restricted to ASCII. -/
def isPySpace (c : Char) : Bool :=
  c = ' ' || c = '\t' || c = '\n' || c = '\r' || c = '\x0b' || c = '\x0c'

/-- Model of the Python str.strip method over a character list. -/
def pyStrip (l : List Char) : List Char :=
  ((l.dropWhile isPySpace).reverse.dropWhile isPySpace).reverse

/-- Model of the Python replace of a one-character substring by the empty
string: every occurrence of the character is removed. -/
def removeChar (c : Char) (l : List Char) : List Char :=
  l.filter (fun x => x != c)

/-- Does the character list start with the given character (str.startswith). -/
def headIs (l : List Char) (c : Char) : Bool :=
  match l with
  | [] => false
  | x :: _ => x == c

/-- Does the character list end with the given character (str.endswith). -/
def lastIs (l : List Char) (c : Char) : Bool :=
  headIs l.reverse c

/-- Numeric value of a list of decimal digit characters. -/
def digitsToNat (l : List Char) : Nat :=
  l.foldl (fun a c => a * 10 + (c.toNat - 48)) 0

/-- Is every character a decimal digit. -/
def allDigits (l : List Char) : Bool :=
  l.all Char.isDigit

/-- Split a character list on a separator character, keeping empty parts,
as the Python str.split of a one-character separator does. -/
def splitOnChar (sep : Char) : List Char → List (List Char)
  | [] => [[]]
  | c :: rest =>
    let r := splitOnChar sep rest
    if c = sep then [] :: r
    else
      match r with
      | h :: t => (c :: h) :: t
      | [] => [[c]]

/-- Round n / d to the nearest integer, ties to even (the default
ROUND_HALF_EVEN rounding of Decimal.quantize).  Requires d > 0. -/
def roundHalfEvenNat (n d : Nat) : Nat :=
  let q := n / d
  let r := n % d
  if 2 * r < d then q
  else if d < 2 * r then q + 1
  else if q % 2 = 0 then q else q + 1

/-- Parse an unsigned fixed-point literal (digits with at most one dot, at
least one digit) into a count of cents, rounding half-to-even to two
decimal places.  Models Decimal(s).quantize(two places) for unsigned s. -/
def parseUnsignedCents (l : List Char) : Option Nat :=
  match splitOnChar '.' l with
  | [ip] =>
    if allDigits ip && !ip.isEmpty then some (digitsToNat ip * 100) else none
  | [ip, fp] =>
    if allDigits ip && allDigits fp && (!ip.isEmpty || !fp.isEmpty) then
      some (roundHalfEvenNat (digitsToNat (ip ++ fp) * 100) (10 ^ fp.length))
    else none
  | _ => none

/-- Model of Decimal(s) followed by quantize to two decimal places, for
plain fixed-point literals with an optional leading sign.  Returns the
value in cents, or none when the Decimal constructor would raise
InvalidOperation. -/
def decimalCents (l : List Char) : Option Int :=
  match l with
  | '-' :: rest => (parseUnsignedCents rest).map (fun n => -(n : Int))
  | '+' :: rest => (parseUnsignedCents rest).map (fun n => (n : Int))
  | _ => (parseUnsignedCents l).map (fun n => (n : Int))

/-- Render a cent count the way Python str renders a Decimal quantized to
two places: a minus sign for negatives, then the integer part, a dot, and
exactly two fraction digits. -/
def centsToString (n : Int) : String :=
  let a := n.natAbs
  let frac := a % 100
  let fracStr := if frac < 10 then "0" ++ toString frac else toString frac
  (if n < 0 then "-" else "") ++ toString (a / 100) ++ "." ++ fracStr

/-- The accounting-notation step of parse_monetary_value: when the text is
wrapped in parentheses, mark it negative and strip them. -/
def stripParens (l : List Char) : Bool × List Char :=
  if headIs l '(' && lastIs l ')' then (true, (l.drop 1).dropLast)
  else (false, l)

/-- The symbol-stripping step of parse_monetary_value: remove currency
symbols, thousands separators and interior spaces. -/
def stripSymbols (l : List Char) : List Char :=
  removeChar ' ' (removeChar ','
    (removeChar '£' (removeChar '€' (removeChar '$' l))))

/-- The explicit-negative step of parse_monetary_value: a leading minus
sign sets the negative flag (it does not toggle it) and is stripped. -/
def stripMinus (neg : Bool) (l : List Char) : Bool × List Char :=
  if headIs l '-' then (true, l.drop 1) else (neg, l)

/-- Model of CSVProcessor parse_monetary_value: parse one monetary cell
into cents.  A none cell (pandas NaN) or a blank cell parses as 0.  The
issues the source appends to the shared issue list are returned alongside
the result. -/
def parse_monetary_value (value : Option String) (column_name : String)
    (row_num : Nat) : Option Int × List ValidationIssue :=
  match value with
  | none => (some 0, [])
  | some s =>
    if pyStrip s.toList = [] then (some 0, [])
    else
      match stripMinus (stripParens (pyStrip s.toList)).1
          (stripSymbols (stripParens (pyStrip s.toList)).2) with
      | (isNeg, digits) =>
        match decimalCents digits with
        | some r => (some (if isNeg then -r else r), [])
        | none =>
          (none, [⟨row_num, some column_name, ValidationSeverity.error,
            "Invalid monetary value: \x27" ++ s ++ "\x27", some s⟩])

/-- Model of CSVProcessor calculate_amount: parse the debit and credit
cells and compute credit minus debit, emitting the cross-field warning
and info issues of the source. -/
def calculate_amount (debit credit : Option String) (row_num : Nat) :
    Option Int × List ValidationIssue :=
  match parse_monetary_value debit "Debit" row_num,
      parse_monetary_value credit "Credit" row_num with
  | (some dv, di), (some cv, ci) =>
    (some (cv - dv), di ++ ci ++
      (if dv ≠ 0 ∧ cv ≠ 0 then
        [⟨row_num, none, ValidationSeverity.warning,
          "Both debit (" ++ centsToString dv ++ ") and credit (" ++
            centsToString cv ++ ") are non-zero", none⟩]
      else []) ++
      (if cv - dv = 0 then
        [⟨row_num, none, ValidationSeverity.info,
          "Transaction amount is $0.00", none⟩]
      else []))
  | (some _, di), (none, ci) => (none, di ++ ci)
  | (none, di), (_, ci) => (none, di ++ ci)

/-- A calendar date as produced by the Python datetime date type. -/
structure PyDate where
  year : Nat
  month : Nat
  day : Nat
deriving DecidableEq, Repr

/-- Leap year rule of the proleptic Gregorian calendar used by datetime. -/
def isLeapYear (y : Nat) : Bool :=
  y % 4 = 0 && (y % 100 ≠ 0 || y % 400 = 0)

/-- Number of days in a month of a given year. -/
def daysInMonth (y m : Nat) : Nat :=
  if m = 1 || m = 3 || m = 5 || m = 7 || m = 8 || m = 10 || m = 12 then 31
  else if m = 4 || m = 6 || m = 9 || m = 11 then 30
  else if m = 2 then (if isLeapYear y then 29 else 28)
  else 0

/-- Is y-m-d a date the datetime constructor accepts. -/
def validDate (y m d : Nat) : Bool :=
  decide (1 ≤ y ∧ y ≤ 9999 ∧ 1 ≤ m ∧ m ≤ 12 ∧ 1 ≤ d ∧ d ≤ daysInMonth y m)

/-- Order in which the year, month and day fields appear in a date format. -/
inductive DateFieldOrder where
  | ymd
  | mdy
  | dmy
deriving DecidableEq, Repr

/-- Model of strptime against one of the fixed formats of the source: three
numeric fields separated by a fixed separator character, the year written
with exactly four digits, month and day with one or two digits, and the
resulting numbers forming a valid calendar date.  Returns none exactly
where pandas to_datetime with that format raises ValueError. -/
def matchDateFormat (order : DateFieldOrder) (sep : Char) (cs : List Char) :
    Option PyDate :=
  match splitOnChar sep cs with
  | [a, b, c] =>
    let ys := match order with
      | DateFieldOrder.ymd => a
      | DateFieldOrder.mdy => c
      | DateFieldOrder.dmy => c
    let ms := match order with
      | DateFieldOrder.ymd => b
      | DateFieldOrder.mdy => a
      | DateFieldOrder.dmy => b
    let ds := match order with
      | DateFieldOrder.ymd => c
      | DateFieldOrder.mdy => b
      | DateFieldOrder.dmy => a
    if (ys.length == 4) && allDigits ys &&
        (ms.length == 1 || ms.length == 2) && allDigits ms &&
        (ds.length == 1 || ds.length == 2) && allDigits ds then
      let y := digitsToNat ys
      let m := digitsToNat ms
      let d := digitsToNat ds
      if validDate y m d then some ⟨y, m, d⟩ else none
    else none
  | _ => none

/-- The fallback date formats of the source, in their exact order, each
with its field order, separator and the literal format name used in the
Info issue message. -/
def alternative_formats : List (DateFieldOrder × Char × String) :=
  [(DateFieldOrder.mdy, '/', "%m/%d/%Y"),
   (DateFieldOrder.dmy, '/', "%d/%m/%Y"),
   (DateFieldOrder.mdy, '-', "%m-%d-%Y"),
   (DateFieldOrder.ymd, '/', "%Y/%m/%d"),
   (DateFieldOrder.dmy, '-', "%d-%m-%Y")]

/-- The loop over the fallback date formats in parse_date: the first format
that matches wins and records an Info issue naming the format; if none
matches an Error issue with the raw text is recorded. -/
def tryAlternativeFormats (dateStr : List Char) (row_num : Nat) :
    List (DateFieldOrder × Char × String) →
    Option PyDate × List ValidationIssue
  | [] =>
    (none, [⟨row_num, some "Date", ValidationSeverity.error,
      "Invalid date format. Expected YYYY-MM-DD, got \x27" ++
        String.mk dateStr ++ "\x27", some (String.mk dateStr)⟩])
  | (ord, sep, name) :: rest =>
    match matchDateFormat ord sep dateStr with
    | some d =>
      (some d, [⟨row_num, some "Date", ValidationSeverity.info,
        "Date parsed with alternative format \x27" ++ name ++ "\x27",
        some (String.mk dateStr)⟩])
    | none => tryAlternativeFormats dateStr row_num rest

/-- Model of CSVProcessor parse_date: a missing or blank cell is an error;
the primary format YYYY-MM-DD is tried first and accepted silently; then
the fallback formats are tried in order. -/
def parse_date (value : Option String) (row_num : Nat) :
    Option PyDate × List ValidationIssue :=
  match value with
  | none =>
    (none, [⟨row_num, some "Date", ValidationSeverity.error,
      "Date is required but missing", some "nan"⟩])
  | some s =>
    if pyStrip s.toList = [] then
      (none, [⟨row_num, some "Date", ValidationSeverity.error,
        "Date is required but missing", some s⟩])
    else
      match matchDateFormat DateFieldOrder.ymd '-' (pyStrip s.toList) with
      | some d => (some d, [])
      | none =>
        tryAlternativeFormats (pyStrip s.toList) row_num alternative_formats

/-- Model of CSVProcessor parse_description: a missing or blank cell is
replaced by a fixed placeholder with a Warning; text longer than 500
characters is truncated to exactly 500 with a Warning; anything else is
returned trimmed with no issue.  Never returns none. -/
def parse_description (value : Option String) (row_num : Nat) :
    Option String × List ValidationIssue :=
  match value with
  | none =>
    (some "No description", [⟨row_num, some "Description",
      ValidationSeverity.warning,
      "Description is empty, using \x27No description\x27", some "nan"⟩])
  | some s =>
    if pyStrip s.toList = [] then
      (some "No description", [⟨row_num, some "Description",
        ValidationSeverity.warning,
        "Description is empty, using \x27No description\x27", some s⟩])
    else
      if 500 < (pyStrip s.toList).length then
        (some (String.mk ((pyStrip s.toList).take 500)),
         [⟨row_num, some "Description", ValidationSeverity.warning,
           "Description truncated from " ++
             toString (pyStrip s.toList).length ++
             " to 500 characters", none⟩])
      else (some (String.mk (pyStrip s.toList)), [])

/-- A transaction draft as built by process_row (a Python dict in the
source, with the fixed keys listed in the dataclass order of use). -/
structure TransactionDraft where
  account_id : Nat
  date : PyDate
  description : String
  amount : Int
  category : String
  is_verified : Bool
  import_batch_id : String
deriving DecidableEq, Repr

/-- Cell access row.iloc[i]: a missing slot reads as NaN. -/
def getCell (row : List (Option String)) (i : Nat) : Option String :=
  (row[i]?).join

/-- Model of CSVProcessor process_row: runs the date parser, the
description normalizer and the amount calculation in order over the first
four columns, returning the draft (or none when the row is skipped)
together with every issue the row generated. -/
def process_row (row : List (Option String)) (row_num : Nat)
    (account_id : Nat) (batch_id : String) :
    Option TransactionDraft × List ValidationIssue :=
  match parse_date (getCell row 0) row_num with
  | (none, i1) => (none, i1)
  | (some date_value, i1) =>
    match parse_description (getCell row 1) row_num with
    | (none, i2) => (none, i1 ++ i2)
    | (some description, i2) =>
      match calculate_amount (getCell row 2) (getCell row 3) row_num with
      | (none, i3) => (none, i1 ++ i2 ++ i3)
      | (some amount, i3) =>
        (some ⟨account_id, date_value, description, amount,
          "Uncategorized", false, batch_id⟩,
         i1 ++ i2 ++ i3)

/-- Chronological strict order on calendar dates (Python date comparison). -/
def dateLt (a b : PyDate) : Bool :=
  decide (a.year < b.year ∨ (a.year = b.year ∧
    (a.month < b.month ∨ (a.month = b.month ∧ a.day < b.day))))

/-- Model of the Python min over a list of dates (none on an empty list). -/
def minDate (l : List PyDate) : Option PyDate :=
  match l with
  | [] => none
  | x :: xs => some (xs.foldl (fun acc y => if dateLt y acc then y else acc) x)

/-- Model of the Python max over a list of dates (none on an empty list). -/
def maxDate (l : List PyDate) : Option PyDate :=
  match l with
  | [] => none
  | x :: xs => some (xs.foldl (fun acc y => if dateLt acc y then y else acc) x)

/-- Summary statistics over the accepted transactions, amounts in cents. -/
structure Summary where
  total_income : Int
  total_expenses : Int
  net_amount : Int
  date_range : Option (PyDate × PyDate)
  transaction_count : Nat
deriving DecidableEq, Repr

/-- Sum of the amounts of a draft list that satisfy a predicate. -/
def sumAmounts (p : Int → Bool) (transactions : List TransactionDraft) : Int :=
  ((transactions.map (fun t => t.amount)).filter p).sum

/-- Model of CSVProcessor generate_summary. -/
def generate_summary (transactions : List TransactionDraft) : Summary :=
  if transactions = [] then ⟨0, 0, 0, none, 0⟩
  else
    match minDate (transactions.map (fun t => t.date)),
        maxDate (transactions.map (fun t => t.date)) with
    | some mn, some mx =>
      ⟨sumAmounts (fun a => decide (0 < a)) transactions,
        |sumAmounts (fun a => decide (a < 0)) transactions|,
        sumAmounts (fun a => decide (0 < a)) transactions +
          sumAmounts (fun a => decide (a < 0)) transactions,
        some (mn, mx), transactions.length⟩
    | _, _ =>
      ⟨sumAmounts (fun a => decide (0 < a)) transactions,
        |sumAmounts (fun a => decide (a < 0)) transactions|,
        sumAmounts (fun a => decide (0 < a)) transactions +
          sumAmounts (fun a => decide (a < 0)) transactions,
        none, transactions.length⟩

/-- The typed errors the pipeline can raise (module app.utils.exceptions:
CSVValidationError, CSVParsingError, CSVColumnError). -/
inductive CSVError where
  | validationError (message : String)
  | parsingError (message : String)
  | columnError (message : String)
deriving DecidableEq, Repr

/-- A decoded table: the declared column count of the DataFrame together
with its rows; a none cell is a pandas NaN. -/
structure RawTable where
  ncols : Nat
  rows : List (List (Option String))
deriving DecidableEq, Repr

/-- Model of CSVProcessor validate_structure: fewer than four columns is a
ColumnError; more than four columns records one table-level Warning; an
empty table is a ValidationError; otherwise the recorded issues are
returned. -/
def validate_structure (ncols : Nat)
    (rows : List (List (Option String))) :
    Except CSVError (List ValidationIssue) :=
  if ncols < 4 then
    Except.error (CSVError.columnError
      ("CSV must have at least 4 columns, found " ++ toString ncols ++
        ". Expected: Date, Description, Debit, Credit"))
  else
    let issues : List ValidationIssue :=
      if 4 < ncols then
        [⟨0, none, ValidationSeverity.warning,
          "CSV has " ++ toString ncols ++ " columns, expected 4. " ++
            "Extra columns will be ignored.", none⟩]
      else []
    if rows = [] then
      Except.error (CSVError.validationError "CSV file contains no data rows")
    else Except.ok issues

/-- The iteration of CSVProcessor transform_data: rows are processed in
order; an accepted draft is appended, a skipped row increments the skip
count, and in strict mode a skipped row whose accumulated issues contain
an Error with its row number aborts with a ValidationError built from the
first such issue. -/
def transform_go (strict : Bool) (account_id : Nat) (batch_id : String) :
    List (List (Option String)) → Nat → List TransactionDraft → Nat →
    List ValidationIssue →
    Except CSVError (List TransactionDraft × Nat × List ValidationIssue)
  | [], _, txs, skipped, issues => Except.ok (txs, skipped, issues)
  | row :: rest, idx, txs, skipped, issues =>
    match process_row row (idx + 1) account_id batch_id with
    | (some t, newIssues) =>
      transform_go strict account_id batch_id rest (idx + 1)
        (txs ++ [t]) skipped (issues ++ newIssues)
    | (none, newIssues) =>
      if strict then
        match (issues ++ newIssues).filter (fun i =>
            decide (i.row_number = idx + 1 ∧
              i.severity = ValidationSeverity.error)) with
        | e :: _ =>
          Except.error (CSVError.validationError
            ("Row " ++ toString (idx + 1) ++ ": " ++ e.message))
        | [] =>
          transform_go strict account_id batch_id rest (idx + 1)
            txs (skipped + 1) (issues ++ newIssues)
      else
        transform_go strict account_id batch_id rest (idx + 1)
          txs (skipped + 1) (issues ++ newIssues)

/-- Model of CSVProcessor transform_data, started from the issues already
recorded by structural validation. -/
def transform_data (strict : Bool) (account_id : Nat) (batch_id : String)
    (init_issues : List ValidationIssue)
    (rows : List (List (Option String))) :
    Except CSVError (List TransactionDraft × Nat × List ValidationIssue) :=
  transform_go strict account_id batch_id rows 0 [] 0 init_issues

/-- The result of one pipeline invocation (class ProcessingResult). -/
structure ProcessingResult where
  success : Bool
  transactions : List TransactionDraft
  batch_id : String
  total_rows : Nat
  processed_rows : Nat
  skipped_rows : Nat
  issues : List ValidationIssue
  summary : Summary
deriving DecidableEq, Repr

/-- Decidable equality of pipeline outcomes, for evaluating the model at
concrete inputs. -/
instance {e a : Type} [DecidableEq e] [DecidableEq a] :
    DecidableEq (Except e a) := fun x y =>
  match x, y with
  | Except.error u, Except.error v =>
    if h : u = v then Decidable.isTrue (by rw [h])
    else Decidable.isFalse (fun hh => h (Except.error.inj hh))
  | Except.ok u, Except.ok v =>
    if h : u = v then Decidable.isTrue (by rw [h])
    else Decidable.isFalse (fun hh => h (Except.ok.inj hh))
  | Except.error _, Except.ok _ =>
    Decidable.isFalse (fun hh => Except.noConfusion hh)
  | Except.ok _, Except.error _ =>
    Decidable.isFalse (fun hh => Except.noConfusion hh)

/-- Model of CSVProcessor process_csv over an already decoded table.  The
batch identifier the source draws from uuid4 at the start of the
invocation is passed in explicitly. -/
def process_csv (strict : Bool) (batch_id : String) (account_id : Nat)
    (table : RawTable) : Except CSVError ProcessingResult :=
  match validate_structure table.ncols table.rows with
  | Except.error e => Except.error e
  | Except.ok structIssues =>
    match transform_data strict account_id batch_id structIssues table.rows with
    | Except.error e => Except.error e
    | Except.ok (transactions, skipped, issues) =>
      Except.ok ⟨true, transactions, batch_id, table.rows.length,
        transactions.length, skipped, issues,
        generate_summary transactions⟩

/-- Drafts of the rows the row transformer accepts, in input order,
starting the numbering at idx + 1.  Reference function for stating what a
lenient run returns. -/
def acceptedDrafts (account_id : Nat) (batch_id : String) :
    List (List (Option String)) → Nat → List TransactionDraft
  | [], _ => []
  | r :: rest, idx =>
    match (process_row r (idx + 1) account_id batch_id).1 with
    | some t => t :: acceptedDrafts account_id batch_id rest (idx + 1)
    | none => acceptedDrafts account_id batch_id rest (idx + 1)

/-- Number of rows the row transformer rejects, starting at idx + 1. -/
def skippedCount (account_id : Nat) (batch_id : String) :
    List (List (Option String)) → Nat → Nat
  | [], _ => 0
  | r :: rest, idx =>
    (if (process_row r (idx + 1) account_id batch_id).1 = none then 1 else 0)
      + skippedCount account_id batch_id rest (idx + 1)

/-- Concatenation of the issues of every row, in row order. -/
def allRowIssues (account_id : Nat) (batch_id : String) :
    List (List (Option String)) → Nat → List ValidationIssue
  | [], _ => []
  | r :: rest, idx =>
    (process_row r (idx + 1) account_id batch_id).2 ++
      allRowIssues account_id batch_id rest (idx + 1)

/-- Replace the batch identifier of a draft, leaving every other field. -/
def withBatch (t : TransactionDraft) (b : String) : TransactionDraft :=
  ⟨t.account_id, t.date, t.description, t.amount, t.category,
    t.is_verified, b⟩

/-- Chronological order on calendar dates, non-strict. -/
def dateLe (a b : PyDate) : Bool :=
  decide (a.year < b.year ∨ (a.year = b.year ∧
    (a.month < b.month ∨ (a.month = b.month ∧ a.day ≤ b.day))))

theorem withBatch_withBatch (t : TransactionDraft) (b c : String) :
    withBatch (withBatch t c) b = withBatch t b := rfl

theorem withBatch_batch (t : TransactionDraft) (b : String) :
    (withBatch t b).import_batch_id = b := rfl

theorem find?_filter_cons {α : Type} (p : α → Bool) (l : List α) (e : α)
    (h : l.find? p = some e) : ∃ t, l.filter p = e :: t := by
  induction l with
  | nil => simp at h
  | cons a l ih =>
    by_cases hp : p a
    · rw [List.find?_cons_of_pos _ hp] at h
      exact ⟨l.filter p, by simp [List.filter_cons, hp, ← Option.some_inj.mp h]⟩
    · rw [List.find?_cons_of_neg _ (by simpa using hp)] at h
      obtain ⟨t, ht⟩ := ih h
      exact ⟨t, by simp [List.filter_cons, hp, ht]⟩

theorem parse_monetary_value_issue_row (v : Option String) (c : String)
    (n : Nat) : ∀ i ∈ (parse_monetary_value v c n).2, i.row_number = n := by
  unfold parse_monetary_value
  repeat' split
  all_goals simp_all

theorem parse_monetary_value_some_issues (v : Option String) (c : String)
    (n : Nat) (x : Int) (h : (parse_monetary_value v c n).1 = some x) :
    (parse_monetary_value v c n).2 = [] := by
  revert h
  unfold parse_monetary_value
  repeat' split
  all_goals simp_all

theorem parse_monetary_value_none_issues (v : Option String) (c : String)
    (n : Nat) (h : (parse_monetary_value v c n).1 = none) :
    ∃ e, (parse_monetary_value v c n).2 = [e] ∧
      e.severity = ValidationSeverity.error ∧ e.row_number = n ∧
      e.column = some c := by
  revert h
  unfold parse_monetary_value
  repeat' split
  all_goals simp_all

theorem calculate_amount_issue_row (d c : Option String) (n : Nat) :
    ∀ i ∈ (calculate_amount d c n).2, i.row_number = n := by
  have hd := parse_monetary_value_issue_row d "Debit" n
  have hc := parse_monetary_value_issue_row c "Credit" n
  unfold calculate_amount
  split <;> rename_i heqd heqc <;>
    simp only [heqd, heqc] at hd hc <;> intro i hi
  · simp only [List.mem_append] at hi
    rcases hi with ((h | h) | h) | h
    · exact hd i h
    · exact hc i h
    · revert h
      split <;> simp_all
    · revert h
      split <;> simp_all
  · simp only [List.mem_append] at hi
    rcases hi with h | h
    · exact hd i h
    · exact hc i h
  · simp only [List.mem_append] at hi
    rcases hi with h | h
    · exact hd i h
    · exact hc i h

theorem tryAlternativeFormats_issue_row (ds : List Char) (n : Nat)
    (fs : List (DateFieldOrder × Char × String)) :
    ∀ i ∈ (tryAlternativeFormats ds n fs).2, i.row_number = n := by
  induction fs with
  | nil => simp [tryAlternativeFormats]
  | cons f rest ih =>
    obtain ⟨ord, sep, name⟩ := f
    simp only [tryAlternativeFormats]
    split <;> simp_all

theorem tryAlternativeFormats_none_issues (ds : List Char) (n : Nat)
    (fs : List (DateFieldOrder × Char × String))
    (h : (tryAlternativeFormats ds n fs).1 = none) :
    ∃ e, (tryAlternativeFormats ds n fs).2 = [e] ∧
      e.severity = ValidationSeverity.error ∧ e.row_number = n ∧
      e.column = some "Date" := by
  induction fs with
  | nil => simp [tryAlternativeFormats]
  | cons f rest ih =>
    obtain ⟨ord, sep, name⟩ := f
    simp only [tryAlternativeFormats] at *
    revert h
    split <;> simp_all

theorem parse_date_issue_row (v : Option String) (n : Nat) :
    ∀ i ∈ (parse_date v n).2, i.row_number = n := by
  unfold parse_date
  repeat' split
  all_goals
    first
    | (simp_all; done)
    | exact tryAlternativeFormats_issue_row _ n _

theorem parse_date_none_issues (v : Option String) (n : Nat)
    (h : (parse_date v n).1 = none) :
    ∃ e, (parse_date v n).2 = [e] ∧
      e.severity = ValidationSeverity.error ∧ e.row_number = n ∧
      e.column = some "Date" := by
  revert h
  unfold parse_date
  repeat' split
  all_goals
    first
    | (simp_all; done)
    | exact fun h => tryAlternativeFormats_none_issues _ n _ h

theorem parse_description_isSome (v : Option String) (n : Nat) :
    ∃ d, (parse_description v n).1 = some d := by
  unfold parse_description
  repeat' split
  all_goals simp_all

theorem parse_description_issue_row (v : Option String) (n : Nat) :
    ∀ i ∈ (parse_description v n).2, i.row_number = n := by
  unfold parse_description
  repeat' split
  all_goals simp_all

theorem process_row_issue_row (row : List (Option String)) (n a : Nat)
    (b : String) : ∀ i ∈ (process_row row n a b).2, i.row_number = n := by
  have h1 := parse_date_issue_row (getCell row 0) n
  have h2 := parse_description_issue_row (getCell row 1) n
  have h3 := calculate_amount_issue_row (getCell row 2) (getCell row 3) n
  unfold process_row
  split
  · rename_i heq
    simp only [heq] at h1
    exact h1
  · rename_i heq1
    simp only [heq1] at h1
    split
    · rename_i heq2
      simp only [heq2] at h2
      intro i hi
      rcases List.mem_append.mp hi with h | h
      · exact h1 i h
      · exact h2 i h
    · rename_i heq2
      simp only [heq2] at h2
      split
      · rename_i heq3
        simp only [heq3] at h3
        intro i hi
        rcases List.mem_append.mp hi with h | h
        · rcases List.mem_append.mp h with h | h
          · exact h1 i h
          · exact h2 i h
        · exact h3 i h
      · rename_i heq3
        simp only [heq3] at h3
        intro i hi
        rcases List.mem_append.mp hi with h | h
        · rcases List.mem_append.mp h with h | h
          · exact h1 i h
          · exact h2 i h
        · exact h3 i h

theorem transform_go_lenient (a : Nat) (b : String) :
    ∀ (rows : List (List (Option String))) (idx : Nat)
      (txs : List TransactionDraft) (sk : Nat) (iss : List ValidationIssue),
    transform_go false a b rows idx txs sk iss =
      Except.ok (txs ++ acceptedDrafts a b rows idx,
        sk + skippedCount a b rows idx,
        iss ++ allRowIssues a b rows idx) := by
  intro rows
  induction rows with
  | nil =>
    intro idx txs sk iss
    simp [transform_go, acceptedDrafts, skippedCount, allRowIssues]
  | cons r rest ih =>
    intro idx txs sk iss
    simp only [transform_go, acceptedDrafts, skippedCount, allRowIssues]
    cases hp : process_row r (idx + 1) a b with
    | mk t1 newIss =>
      cases t1 with
      | some t =>
        simp only [hp, ih]
        simp [List.append_assoc]
      | none =>
        simp only [hp, ih, Bool.false_eq_true, if_false]
        simp [List.append_assoc]
        omega

theorem transform_go_ok_counts (strict : Bool) (a : Nat) (b : String) :
    ∀ (rows : List (List (Option String))) (idx : Nat)
      (txs : List TransactionDraft) (sk : Nat) (iss : List ValidationIssue)
      (T : List TransactionDraft) (S : Nat) (I : List ValidationIssue),
    transform_go strict a b rows idx txs sk iss = Except.ok (T, S, I) →
    T.length + S = txs.length + sk + rows.length := by
  intro rows
  induction rows with
  | nil =>
    intro idx txs sk iss T S I h
    simp [transform_go] at h
    obtain ⟨h1, h2, h3⟩ := h
    simp [← h1, ← h2]
  | cons r rest ih =>
    intro idx txs sk iss T S I h
    simp only [transform_go] at h
    cases hp : process_row r (idx + 1) a b with
    | mk t1 newIss =>
      rw [hp] at h
      cases t1 with
      | some t =>
        have := ih (idx + 1) (txs ++ [t]) sk (iss ++ newIss) T S I h
        simp [List.length_append] at this
        simp [List.length_cons]
        omega
      | none =>
        simp only at h
        split at h
        · split at h
          · exact absurd h (by simp)
          · have := ih (idx + 1) txs (sk + 1) (iss ++ newIss) T S I h
            simp [List.length_cons]
            omega
        · have := ih (idx + 1) txs (sk + 1) (iss ++ newIss) T S I h
          simp [List.length_cons]
          omega

theorem process_row_some_batch (row : List (Option String)) (n a : Nat)
    (b : String) (t : TransactionDraft)
    (h : (process_row row n a b).1 = some t) : t.import_batch_id = b := by
  revert h
  unfold process_row
  repeat' split
  all_goals simp_all
  intro h
  rw [← h]

theorem transform_go_ok_batch (strict : Bool) (a : Nat) (b : String) :
    ∀ (rows : List (List (Option String))) (idx : Nat)
      (txs : List TransactionDraft) (sk : Nat) (iss : List ValidationIssue)
      (T : List TransactionDraft) (S : Nat) (I : List ValidationIssue),
    transform_go strict a b rows idx txs sk iss = Except.ok (T, S, I) →
    (∀ t ∈ txs, t.import_batch_id = b) →
    ∀ t ∈ T, t.import_batch_id = b := by
  intro rows
  induction rows with
  | nil =>
    intro idx txs sk iss T S I h hall
    simp [transform_go] at h
    obtain ⟨h1, _, _⟩ := h
    rw [← h1]
    exact hall
  | cons r rest ih =>
    intro idx txs sk iss T S I h hall
    simp only [transform_go] at h
    cases hp : process_row r (idx + 1) a b with
    | mk t1 newIss =>
      rw [hp] at h
      cases t1 with
      | some t =>
        refine ih (idx + 1) (txs ++ [t]) sk (iss ++ newIss) T S I h ?_
        intro u hu
        rcases List.mem_append.mp hu with hu | hu
        · exact hall u hu
        · have : u = t := by simpa using hu
          rw [this]
          exact process_row_some_batch r (idx + 1) a b t (by rw [hp])
      | none =>
        simp only at h
        split at h
        · split at h
          · exact absurd h (by simp)
          · exact ih (idx + 1) txs (sk + 1) (iss ++ newIss) T S I h hall
        · exact ih (idx + 1) txs (sk + 1) (iss ++ newIss) T S I h hall

theorem calculate_amount_none_error (d c : Option String) (n : Nat)
    (h : (calculate_amount d c n).1 = none) :
    ∃ e ∈ (calculate_amount d c n).2,
      e.severity = ValidationSeverity.error := by
  revert h
  unfold calculate_amount
  split
  · rename_i heqd heqc
    simp
  · rename_i heqd heqc
    intro _
    obtain ⟨e, he, hsev, _, _⟩ :=
      parse_monetary_value_none_issues c "Credit" n (by rw [heqc])
    rw [heqc] at he
    simp only at he
    refine ⟨e, ?_, hsev⟩
    simp [he]
  · rename_i heqd heqc
    intro _
    obtain ⟨e, he, hsev, _, _⟩ :=
      parse_monetary_value_none_issues d "Debit" n (by rw [heqd])
    rw [heqd] at he
    simp only at he
    refine ⟨e, ?_, hsev⟩
    simp [he]

theorem process_row_none_error (row : List (Option String)) (n a : Nat)
    (b : String) (h : (process_row row n a b).1 = none) :
    ∃ e ∈ (process_row row n a b).2,
      e.severity = ValidationSeverity.error := by
  revert h
  unfold process_row
  split
  · rename_i heq
    intro _
    obtain ⟨e, he, hsev, _, _⟩ :=
      parse_date_none_issues (getCell row 0) n (by rw [heq])
    rw [heq] at he
    simp only at he
    exact ⟨e, by simp [he], hsev⟩
  · rename_i heq1
    split
    · rename_i heq2
      intro _
      obtain ⟨dv, hd⟩ := parse_description_isSome (getCell row 1) n
      rw [heq2] at hd
      simp at hd
    · rename_i heq2
      split
      · rename_i heq3
        intro _
        obtain ⟨e, he, hsev⟩ :=
          calculate_amount_none_error (getCell row 2) (getCell row 3) n
            (by rw [heq3])
        rw [heq3] at he
        simp only at he
        exact ⟨e, by simp [he], hsev⟩
      · simp

theorem transform_go_strict_abort (a : Nat) (b : String) :
    ∀ (k : Nat) (rows : List (List (Option String))) (idx : Nat)
      (txs : List TransactionDraft) (sk : Nat) (iss : List ValidationIssue)
      (hk : k < rows.length),
    (∀ i ∈ iss, i.row_number ≤ idx) →
    (process_row (rows.get ⟨k, hk⟩) (idx + k + 1) a b).1 = none →
    (∀ j (hj : j < rows.length), j < k →
      (process_row (rows.get ⟨j, hj⟩) (idx + j + 1) a b).1 ≠ none) →
    ∃ e, (process_row (rows.get ⟨k, hk⟩) (idx + k + 1) a b).2.find?
        (fun i => decide (i.severity = ValidationSeverity.error)) = some e ∧
      transform_go true a b rows idx txs sk iss =
        Except.error (CSVError.validationError
          ("Row " ++ toString (idx + k + 1) ++ ": " ++ e.message)) := by
  intro k
  induction k with
  | zero =>
    intro rows idx txs sk iss hk hiss hfail _
    cases rows with
    | nil => exact absurd hk (by simp)
    | cons r rest =>
      simp only [List.get] at hfail
      have hadd : idx + 0 + 1 = idx + 1 := by omega
      rw [hadd] at hfail
      cases hp : process_row r (idx + 1) a b with
      | mk t1 newIss =>
        rw [hp] at hfail
        simp only at hfail
        subst hfail
        have hrow : ∀ i ∈ newIss, i.row_number = idx + 1 := by
          have := process_row_issue_row r (idx + 1) a b
          rw [hp] at this
          exact this
        have herr : ∃ e ∈ newIss, e.severity = ValidationSeverity.error := by
          have := process_row_none_error r (idx + 1) a b (by rw [hp])
          rw [hp] at this
          exact this
        have hfind : ((newIss).find? (fun i =>
            decide (i.severity = ValidationSeverity.error))).isSome = true := by
          rw [List.find?_isSome]
          obtain ⟨e, he, hsev⟩ := herr
          exact ⟨e, he, by simp [hsev]⟩
        obtain ⟨e, hfe⟩ := Option.isSome_iff_exists.mp hfind
        refine ⟨e, ?_, ?_⟩
        · simp only [List.get, hadd, hp]
          exact hfe
        · simp only [transform_go, hp]
          have hfilter1 : iss.filter (fun i =>
              decide (i.row_number = idx + 1 ∧
                i.severity = ValidationSeverity.error)) = [] := by
            rw [List.filter_eq_nil_iff]
            intro i hi
            have := hiss i hi
            simp only [decide_eq_true_eq]
            omega
          have hfilter2 : newIss.filter (fun i =>
              decide (i.row_number = idx + 1 ∧
                i.severity = ValidationSeverity.error)) =
              newIss.filter (fun i =>
                decide (i.severity = ValidationSeverity.error)) := by
            refine List.filter_congr ?_
            intro x hx
            have := hrow x hx
            simp [this]
          obtain ⟨t, hft⟩ := find?_filter_cons _ newIss e hfe
          rw [List.filter_append, hfilter1, hfilter2, List.nil_append, hft,
            hadd]
          simp
  | succ k ih =>
    intro rows idx txs sk iss hk hiss hfail hmin
    cases rows with
    | nil => exact absurd hk (by simp)
    | cons r rest =>
      have h0 : (process_row r (idx + 1) a b).1 ≠ none := by
        have := hmin 0 (by simp) (by omega)
        simpa using this
      cases hp : process_row r (idx + 1) a b with
      | mk t1 newIss =>
        rw [hp] at h0
        simp only at h0
        cases t1 with
        | none => exact absurd rfl h0
        | some t =>
          have hk' : k < rest.length := by
            simpa using hk
          have hfail' : (process_row (rest.get ⟨k, hk'⟩)
              ((idx + 1) + k + 1) a b).1 = none := by
            have harith : (idx + 1) + k + 1 = idx + (k + 1) + 1 := by omega
            rw [harith]
            have hget : (r :: rest).get ⟨k + 1, hk⟩ = rest.get ⟨k, hk'⟩ :=
              List.get_cons_succ
            rw [← hget]
            exact hfail
          have hmin' : ∀ j (hj : j < rest.length), j < k →
              (process_row (rest.get ⟨j, hj⟩) ((idx + 1) + j + 1) a b).1 ≠
                none := by
            intro j hj hjk
            have harith : (idx + 1) + j + 1 = idx + (j + 1) + 1 := by omega
            rw [harith]
            have hget : (r :: rest).get ⟨j + 1, by simpa using hj⟩ =
                rest.get ⟨j, hj⟩ := List.get_cons_succ
            rw [← hget]
            exact hmin (j + 1) (by simpa using hj) (by omega)
          have hiss' : ∀ i ∈ iss ++ newIss, i.row_number ≤ idx + 1 := by
            intro i hi
            rcases List.mem_append.mp hi with hi | hi
            · have := hiss i hi
              omega
            · have := process_row_issue_row r (idx + 1) a b
              rw [hp] at this
              have := this i hi
              omega
          obtain ⟨e, hfe, hgo⟩ := ih rest (idx + 1) (txs ++ [t]) sk
            (iss ++ newIss) hk' hiss' hfail' hmin'
          refine ⟨e, ?_, ?_⟩
          · have hget : (r :: rest).get ⟨k + 1, hk⟩ = rest.get ⟨k, hk'⟩ :=
              List.get_cons_succ
            have harith : idx + (k + 1) + 1 = (idx + 1) + k + 1 := by omega
            rw [hget, harith]
            exact hfe
          · simp only [transform_go, hp]
            have harith : idx + (k + 1) + 1 = (idx + 1) + k + 1 := by omega
            rw [harith]
            exact hgo

theorem withBatch_eq_self (t : TransactionDraft) (b : String)
    (h : t.import_batch_id = b) : withBatch t b = t := by
  cases t
  simp only [withBatch]
  simp_all

theorem process_row_batch_indep (row : List (Option String)) (n a : Nat)
    (b c : String) :
    process_row row n a b =
      ((process_row row n a c).1.map (fun t => withBatch t b),
        (process_row row n a c).2) := by
  unfold process_row
  cases h1 : parse_date (getCell row 0) n with
  | mk o1 i1 =>
    cases o1 with
    | none => simp
    | some dv =>
      cases h2 : parse_description (getCell row 1) n with
      | mk o2 i2 =>
        cases o2 with
        | none => simp
        | some desc =>
          cases h3 : calculate_amount (getCell row 2) (getCell row 3) n with
          | mk o3 i3 =>
            cases o3 with
            | none => simp
            | some amt => simp [withBatch]

theorem transform_go_batch (strict : Bool) (a : Nat) (b c : String) :
    ∀ (rows : List (List (Option String))) (idx : Nat)
      (txs0 : List TransactionDraft) (sk : Nat) (iss : List ValidationIssue),
    transform_go strict a b rows idx
        (txs0.map (fun t => withBatch t b)) sk iss =
      Except.map (fun r => (r.1.map (fun t => withBatch t b), r.2))
        (transform_go strict a c rows idx
          (txs0.map (fun t => withBatch t c)) sk iss) := by
  intro rows
  induction rows with
  | nil =>
    intro idx txs0 sk iss
    simp [transform_go, Except.map, List.map_map, Function.comp,
      withBatch_withBatch]
  | cons r rest ih =>
    intro idx txs0 sk iss
    simp only [transform_go]
    rw [process_row_batch_indep r (idx + 1) a b c]
    cases hp : process_row r (idx + 1) a c with
    | mk o newIss =>
      cases o with
      | some t =>
        have hbt : t.import_batch_id = c :=
          process_row_some_batch r (idx + 1) a c t (by rw [hp])
        simp only [hp, Option.map]
        have e1 : txs0.map (fun u => withBatch u b) ++ [withBatch t b] =
            (txs0 ++ [t]).map (fun u => withBatch u b) := by simp
        have e2 : txs0.map (fun u => withBatch u c) ++ [t] =
            (txs0 ++ [t]).map (fun u => withBatch u c) := by
          simp [withBatch_eq_self t c hbt]
        rw [e1, e2]
        exact ih (idx + 1) (txs0 ++ [t]) sk (iss ++ newIss)
      | none =>
        simp only [hp, Option.map]
        split
        · split
          · simp [Except.map]
          · exact ih (idx + 1) txs0 (sk + 1) (iss ++ newIss)
        · exact ih (idx + 1) txs0 (sk + 1) (iss ++ newIss)

theorem generate_summary_map_withBatch (l : List TransactionDraft)
    (b : String) :
    generate_summary (l.map (fun t => withBatch t b)) =
      generate_summary l := by
  unfold generate_summary
  have hamt : (l.map (fun t => withBatch t b)).map (fun t => t.amount) =
      l.map (fun t => t.amount) := by
    simp [List.map_map, Function.comp, withBatch]
  have hdat : (l.map (fun t => withBatch t b)).map (fun t => t.date) =
      l.map (fun t => t.date) := by
    simp [List.map_map, Function.comp, withBatch]
  have hnil : (l.map (fun t => withBatch t b)) = [] ↔ l = [] := by simp
  have hsum : ∀ p, sumAmounts p (l.map (fun t => withBatch t b)) =
      sumAmounts p l := by
    intro p
    unfold sumAmounts
    rw [hamt]
  cases l with
  | nil => simp
  | cons x xs =>
    simp only [hnil, hdat, hsum]
    simp [List.map_map, Function.comp, withBatch]

theorem dateLe_of_lt (a b : PyDate) (h : dateLt a b = true) :
    dateLe a b = true := by
  simp only [dateLt, dateLe, decide_eq_true_eq] at *
  omega

theorem dateLe_of_not_lt (a b : PyDate) (h : dateLt a b = false) :
    dateLe b a = true := by
  simp only [dateLt, dateLe, decide_eq_false_iff_not, decide_eq_true_eq]
    at *
  omega

theorem dateLe_trans (a b c : PyDate) (h1 : dateLe a b = true)
    (h2 : dateLe b c = true) : dateLe a c = true := by
  simp only [dateLe, decide_eq_true_eq] at *
  omega

theorem foldl_min_spec (xs : List PyDate) :
    ∀ (x : PyDate),
    (xs.foldl (fun acc y => if dateLt y acc then y else acc) x = x ∨
      xs.foldl (fun acc y => if dateLt y acc then y else acc) x ∈ xs) ∧
    dateLe (xs.foldl (fun acc y => if dateLt y acc then y else acc) x) x
      = true ∧
    ∀ y ∈ xs,
      dateLe (xs.foldl (fun acc y => if dateLt y acc then y else acc) x) y
        = true := by
  induction xs with
  | nil =>
    intro x
    refine ⟨Or.inl rfl, ?_, by simp⟩
    exact dateLe_of_not_lt x x (by simp [dateLt])
  | cons z zs ih =>
    intro x
    by_cases hlt : dateLt z x = true
    · obtain ⟨hmem, hle, hall⟩ := ih z
      simp only [List.foldl_cons, hlt, if_pos]
      refine ⟨?_, ?_, ?_⟩
      · rcases hmem with h | h
        · exact Or.inr (by simp [h])
        · exact Or.inr (by simp [h])
      · exact dateLe_trans _ z x hle (dateLe_of_lt z x hlt)
      · intro y hy
        rcases List.mem_cons.mp hy with h | h
        · rw [h]
          exact hle
        · exact hall y h
    · obtain ⟨hmem, hle, hall⟩ := ih x
      have hlt' : dateLt z x = false := by
        revert hlt
        cases dateLt z x <;> simp
      simp only [List.foldl_cons, hlt', if_neg, Bool.false_eq_true,
        not_false_iff]
      refine ⟨?_, hle, ?_⟩
      · rcases hmem with h | h
        · exact Or.inl h
        · exact Or.inr (by simp [h])
      · intro y hy
        rcases List.mem_cons.mp hy with h | h
        · rw [h]
          exact dateLe_trans _ x z hle (dateLe_of_not_lt z x hlt')
        · exact hall y h

theorem foldl_max_spec (xs : List PyDate) :
    ∀ (x : PyDate),
    (xs.foldl (fun acc y => if dateLt acc y then y else acc) x = x ∨
      xs.foldl (fun acc y => if dateLt acc y then y else acc) x ∈ xs) ∧
    dateLe x (xs.foldl (fun acc y => if dateLt acc y then y else acc) x)
      = true ∧
    ∀ y ∈ xs,
      dateLe y (xs.foldl (fun acc y => if dateLt acc y then y else acc) x)
        = true := by
  induction xs with
  | nil =>
    intro x
    refine ⟨Or.inl rfl, ?_, by simp⟩
    exact dateLe_of_not_lt x x (by simp [dateLt])
  | cons z zs ih =>
    intro x
    by_cases hlt : dateLt x z = true
    · obtain ⟨hmem, hle, hall⟩ := ih z
      simp only [List.foldl_cons, hlt, if_pos]
      refine ⟨?_, ?_, ?_⟩
      · rcases hmem with h | h
        · exact Or.inr (by simp [h])
        · exact Or.inr (by simp [h])
      · exact dateLe_trans x z _ (dateLe_of_lt x z hlt) hle
      · intro y hy
        rcases List.mem_cons.mp hy with h | h
        · rw [h]
          exact hle
        · exact hall y h
    · obtain ⟨hmem, hle, hall⟩ := ih x
      have hlt' : dateLt x z = false := by
        revert hlt
        cases dateLt x z <;> simp
      simp only [List.foldl_cons, hlt', if_neg, Bool.false_eq_true,
        not_false_iff]
      refine ⟨?_, hle, ?_⟩
      · rcases hmem with h | h
        · exact Or.inl h
        · exact Or.inr (by simp [h])
      · intro y hy
        rcases List.mem_cons.mp hy with h | h
        · rw [h]
          exact dateLe_trans z x _ (dateLe_of_not_lt x z hlt') hle
        · exact hall y h

theorem sum_nonpos_of_all (l : List Int) (h : ∀ x ∈ l, x ≤ 0) :
    l.sum ≤ 0 := by
  induction l with
  | nil => simp
  | cons a t ih =>
    have ha := h a (by simp)
    have ht := ih (fun x hx => h x (by simp [hx]))
    simp only [List.sum_cons]
    omega

theorem map_abs_sum_of_nonpos (l : List Int) (h : ∀ x ∈ l, x ≤ 0) :
    (l.map (fun x => |x|)).sum = -l.sum := by
  induction l with
  | nil => simp
  | cons a t ih =>
    have ha := h a (by simp)
    have ht := ih (fun x hx => h x (by simp [hx]))
    simp only [List.map_cons, List.sum_cons, ht, abs_of_nonpos ha]
    omega

/-- Claim C2: for every row whose debit and credit cells both parse under
the per-cell monetary rule (empty and blank cells parsing as 0.00 cents),
the computed amount, and the amount of the accepted draft built from such
a row, equal the parsed credit minus the parsed debit; the cent
representation makes the two-decimal rounding exact. -/
theorem amount_credit_minus_debit (debit credit : Option String) (n : Nat)
    (dv cv : Int)
    (hd : (parse_monetary_value debit "Debit" n).1 = some dv)
    (hc : (parse_monetary_value credit "Credit" n).1 = some cv) :
    (calculate_amount debit credit n).1 = some (cv - dv) ∧
    (∀ (row : List (Option String)) (a : Nat) (b : String)
      (t : TransactionDraft),
      getCell row 2 = debit → getCell row 3 = credit →
      (process_row row n a b).1 = some t → t.amount = cv - dv) := by
  have h1 : (calculate_amount debit credit n).1 = some (cv - dv) := by
    unfold calculate_amount
    cases hpd : parse_monetary_value debit "Debit" n with
    | mk od di =>
      cases hpc : parse_monetary_value credit "Credit" n with
      | mk oc ci =>
        rw [hpd] at hd
        rw [hpc] at hc
        simp only at hd hc
        subst hd
        subst hc
        simp
  refine ⟨h1, ?_⟩
  intro row a b t h2 h3 hp
  revert hp
  unfold process_row
  rw [h2, h3]
  repeat' split
  all_goals simp_all
  all_goals
    intro hp
    rw [← hp]

/-- Claim C3 counterexample: the cell "(-50.00)" is wrapped in parentheses
and its inner text begins with a minus sign, yet it parses to the negative
value -50.00 (-5000 cents), not to the positive +50.00 the claim states:
the leading minus re-asserts the negative flag instead of toggling it. -/
theorem paren_minus_counterexample :
    (parse_monetary_value (some "(-50.00)") "Debit" 1).1 = some (-5000) ∧
    ¬(0 < (-5000 : Int)) := by
  constructor
  · decide
  · decide

/-- Claim C3 amended: for every monetary cell wrapped in parentheses whose
inner text, after stripping currency symbols, commas and interior spaces,
still begins with a minus sign, the two negations do NOT stack: the minus
sign merely re-asserts the negative flag, so when the remainder parses to
v cents the cell parses to -v (for "(-50.00)", to -50.00). -/
theorem paren_minus_single_negation (s : String) (col : String) (n : Nat)
    (v : Int)
    (hpar : (stripParens (pyStrip s.toList)).1 = true)
    (hminus : headIs (stripSymbols (stripParens (pyStrip s.toList)).2) '-'
      = true)
    (hval : decimalCents
      ((stripSymbols (stripParens (pyStrip s.toList)).2).drop 1) = some v) :
    (parse_monetary_value (some s) col n).1 = some (-v) := by
  have hne : ¬(pyStrip s.toList = []) := by
    intro h
    rw [h] at hpar
    simp [stripParens, headIs, lastIs] at hpar
  unfold parse_monetary_value
  simp only [hne, if_false]
  unfold stripMinus
  simp only [hminus, if_pos, hval]

/-- Claim C5: a table with fewer than four declared columns aborts the
invocation with a ColumnError carrying the source message; a table with at
least four columns but no rows aborts with the ValidationError naming the
missing data rows; more than four columns only records one table-level
Warning issue with row number 0 and no column and validation succeeds;
exactly four columns succeed with no issue; and the row transformer only
ever reads the first four columns of a row. -/
theorem structural_validation (table : RawTable) (strict : Bool)
    (b : String) (a : Nat) :
    (table.ncols < 4 →
      process_csv strict b a table = Except.error (CSVError.columnError
        ("CSV must have at least 4 columns, found " ++
          toString table.ncols ++
          ". Expected: Date, Description, Debit, Credit"))) ∧
    (4 ≤ table.ncols → table.rows = [] →
      process_csv strict b a table = Except.error
        (CSVError.validationError "CSV file contains no data rows")) ∧
    (4 < table.ncols → table.rows ≠ [] →
      validate_structure table.ncols table.rows = Except.ok
        [⟨0, none, ValidationSeverity.warning,
          "CSV has " ++ toString table.ncols ++ " columns, expected 4. " ++
            "Extra columns will be ignored.", none⟩]) ∧
    (table.ncols = 4 → table.rows ≠ [] →
      validate_structure table.ncols table.rows = Except.ok []) ∧
    (∀ (row : List (Option String)) (n : Nat),
      process_row row n a b = process_row (row.take 4) n a b) := by
  have htake : ∀ (row : List (Option String)) (i : Nat), i < 4 →
      getCell (row.take 4) i = getCell row i := by
    intro row i hi
    simp [getCell, List.getElem?_take, hi]
  refine ⟨?_, ?_, ?_, ?_, ?_⟩
  · intro h
    simp [process_csv, validate_structure, h]
  · intro h4 hrows
    have h : ¬(table.ncols < 4) := by omega
    simp [process_csv, validate_structure, h, hrows]
  · intro h4 hrows
    have h : ¬(table.ncols < 4) := by omega
    simp [validate_structure, h, h4, hrows]
  · intro h4 hrows
    simp [validate_structure, h4, hrows]
  · intro row n
    simp only [process_row, htake row 0 (by omega), htake row 1 (by omega),
      htake row 2 (by omega), htake row 3 (by omega)]

/-- Claim C6: the summary of an empty accepted list is all zeros with no
date range; otherwise total income is the sum of the strictly positive
amounts, total expenses is the sum of the absolute values of the strictly
negative amounts (zero amounts counting to neither), the net amount is
total income minus total expenses, the transaction count is the number of
accepted drafts, and the date range runs from a minimum to a maximum of
the accepted dates in chronological order. -/
theorem summary_totals (transactions : List TransactionDraft) :
    (transactions = [] →
      generate_summary transactions = ⟨0, 0, 0, none, 0⟩) ∧
    (transactions ≠ [] →
      (generate_summary transactions).total_income =
        ((transactions.map (fun t => t.amount)).filter
          (fun a => decide (0 < a))).sum ∧
      (generate_summary transactions).total_expenses =
        (((transactions.map (fun t => t.amount)).filter
          (fun a => decide (a < 0))).map (fun x => |x|)).sum ∧
      (generate_summary transactions).net_amount =
        (generate_summary transactions).total_income -
          (generate_summary transactions).total_expenses ∧
      (generate_summary transactions).transaction_count =
        transactions.length ∧
      ∃ mn mx,
        (generate_summary transactions).date_range = some (mn, mx) ∧
        mn ∈ transactions.map (fun t => t.date) ∧
        mx ∈ transactions.map (fun t => t.date) ∧
        (∀ d ∈ transactions.map (fun t => t.date), dateLe mn d = true) ∧
        (∀ d ∈ transactions.map (fun t => t.date), dateLe d mx = true)) := by
  constructor
  · intro h
    subst h
    simp [generate_summary]
  · intro hne
    cases transactions with
    | nil => exact absurd rfl hne
    | cons x xs =>
      have hneg : ∀ y ∈ ((x :: xs).map (fun t => t.amount)).filter
          (fun a => decide (a < 0)), y ≤ 0 := by
        intro y hy
        have := (List.mem_filter.mp hy).2
        simp only [decide_eq_true_eq] at this
        omega
      have habs := map_abs_sum_of_nonpos _ hneg
      have hsumneg := sum_nonpos_of_all _ hneg
      obtain ⟨hminmem, hminx, hminall⟩ :=
        foldl_min_spec (xs.map (fun t => t.date)) x.date
      obtain ⟨hmaxmem, hmaxx, hmaxall⟩ :=
        foldl_max_spec (xs.map (fun t => t.date)) x.date
      have hg : generate_summary (x :: xs) =
          ⟨sumAmounts (fun a => decide (0 < a)) (x :: xs),
            |sumAmounts (fun a => decide (a < 0)) (x :: xs)|,
            sumAmounts (fun a => decide (0 < a)) (x :: xs) +
              sumAmounts (fun a => decide (a < 0)) (x :: xs),
            some ((xs.map (fun t => t.date)).foldl
                (fun acc y => if dateLt y acc then y else acc) x.date,
              (xs.map (fun t => t.date)).foldl
                (fun acc y => if dateLt acc y then y else acc) x.date),
            (x :: xs).length⟩ := by
        simp [generate_summary, minDate, maxDate]
      rw [hg]
      refine ⟨rfl, ?_, ?_, rfl, ?_⟩
      · show |(((x :: xs).map (fun t => t.amount)).filter
            (fun a => decide (a < 0))).sum| = _
        rw [abs_of_nonpos hsumneg]
        omega
      · show sumAmounts (fun a => decide (0 < a)) (x :: xs) +
            (((x :: xs).map (fun t => t.amount)).filter
              (fun a => decide (a < 0))).sum =
          sumAmounts (fun a => decide (0 < a)) (x :: xs) -
            |(((x :: xs).map (fun t => t.amount)).filter
              (fun a => decide (a < 0))).sum|
        rw [abs_of_nonpos hsumneg]
        ring
      · refine ⟨_, _, rfl, ?_, ?_, ?_, ?_⟩
        · rcases hminmem with h | h
          · rw [h]
            simp
          · simp only [List.map_cons, List.mem_cons]
            exact Or.inr h
        · rcases hmaxmem with h | h
          · rw [h]
            simp
          · simp only [List.map_cons, List.mem_cons]
            exact Or.inr h
        · intro d hd
          rcases List.mem_cons.mp hd with h | h
          · rw [h]
            exact hminx
          · exact hminall d h
        · intro d hd
          rcases List.mem_cons.mp hd with h | h
          · rw [h]
            exact hmaxx
          · exact hmaxall d h

/-- Claim C7: the description normalizer never fails a row: a missing or
blank cell yields the fixed placeholder with one Warning issue, a trimmed
value longer than 500 characters yields its prefix of exactly 500
characters with one Warning issue naming both lengths, and any other
trimmed value is returned unchanged with no issue. -/
theorem description_never_fails (value : Option String) (n : Nat) :
    (∃ d, (parse_description value n).1 = some d) ∧
    (value = none →
      parse_description value n = (some "No description",
        [⟨n, some "Description", ValidationSeverity.warning,
          "Description is empty, using \x27No description\x27",
          some "nan"⟩])) ∧
    (∀ s, value = some s → pyStrip s.toList = [] →
      parse_description value n = (some "No description",
        [⟨n, some "Description", ValidationSeverity.warning,
          "Description is empty, using \x27No description\x27",
          some s⟩])) ∧
    (∀ s, value = some s → 500 < (pyStrip s.toList).length →
      parse_description value n =
        (some (String.mk ((pyStrip s.toList).take 500)),
         [⟨n, some "Description", ValidationSeverity.warning,
           "Description truncated from " ++
             toString (pyStrip s.toList).length ++ " to 500 characters",
           none⟩]) ∧
      (String.mk ((pyStrip s.toList).take 500)).length = 500) ∧
    (∀ s, value = some s → pyStrip s.toList ≠ [] →
      (pyStrip s.toList).length ≤ 500 →
      parse_description value n = (some (String.mk (pyStrip s.toList)),
        [])) := by
  refine ⟨parse_description_isSome value n, ?_, ?_, ?_, ?_⟩
  · intro h
    subst h
    simp [parse_description]
  · intro s hv hblank
    subst hv
    have hblank2 : pyStrip s.data = [] := hblank
    simp [parse_description, hblank2]
  · intro s hv hlen
    subst hv
    have hlen2 : 500 < (pyStrip s.data).length := hlen
    have hne : ¬(pyStrip s.data = []) := by
      intro h
      rw [h] at hlen2
      simp at hlen2
    constructor
    · simp [parse_description, hne, hlen2]
    · have h500 : ((pyStrip s.data).take 500).length = 500 := by
        simp [List.length_take]
        omega
      simpa [String.length] using h500
  · intro s hv hne hlen
    subst hv
    have hne2 : ¬(pyStrip s.data = []) := hne
    have hlen2 : ¬(500 < (pyStrip s.data).length) := by
      have h : (pyStrip s.data).length ≤ 500 := hlen
      omega
    simp [parse_description, hne2, hlen2]

/-- Claim C4: for a non-blank date cell the primary format YYYY-MM-DD is
tried first and accepted silently; otherwise the fallback formats are
tried in exactly the order MM/DD/YYYY, DD/MM/YYYY, MM-DD-YYYY, YYYY/MM/DD,
DD-MM-YYYY, the first match winning with exactly one Info issue naming
that format; and when nothing matches exactly one Error issue on column
Date carrying the raw text is emitted and no date is produced. -/
theorem date_fallback_order (s : String) (n : Nat)
    (hne : pyStrip s.toList ≠ []) :
    (∀ d, matchDateFormat DateFieldOrder.ymd '-' (pyStrip s.toList) =
        some d →
      parse_date (some s) n = (some d, [])) ∧
    (∀ d, matchDateFormat DateFieldOrder.ymd '-' (pyStrip s.toList) =
        none →
      matchDateFormat DateFieldOrder.mdy '/' (pyStrip s.toList) = some d →
      parse_date (some s) n = (some d,
        [⟨n, some "Date", ValidationSeverity.info,
          "Date parsed with alternative format \x27%m/%d/%Y\x27",
          some (String.mk (pyStrip s.toList))⟩])) ∧
    (∀ d, matchDateFormat DateFieldOrder.ymd '-' (pyStrip s.toList) =
        none →
      matchDateFormat DateFieldOrder.mdy '/' (pyStrip s.toList) = none →
      matchDateFormat DateFieldOrder.dmy '/' (pyStrip s.toList) = some d →
      parse_date (some s) n = (some d,
        [⟨n, some "Date", ValidationSeverity.info,
          "Date parsed with alternative format \x27%d/%m/%Y\x27",
          some (String.mk (pyStrip s.toList))⟩])) ∧
    (∀ d, matchDateFormat DateFieldOrder.ymd '-' (pyStrip s.toList) =
        none →
      matchDateFormat DateFieldOrder.mdy '/' (pyStrip s.toList) = none →
      matchDateFormat DateFieldOrder.dmy '/' (pyStrip s.toList) = none →
      matchDateFormat DateFieldOrder.mdy '-' (pyStrip s.toList) = some d →
      parse_date (some s) n = (some d,
        [⟨n, some "Date", ValidationSeverity.info,
          "Date parsed with alternative format \x27%m-%d-%Y\x27",
          some (String.mk (pyStrip s.toList))⟩])) ∧
    (∀ d, matchDateFormat DateFieldOrder.ymd '-' (pyStrip s.toList) =
        none →
      matchDateFormat DateFieldOrder.mdy '/' (pyStrip s.toList) = none →
      matchDateFormat DateFieldOrder.dmy '/' (pyStrip s.toList) = none →
      matchDateFormat DateFieldOrder.mdy '-' (pyStrip s.toList) = none →
      matchDateFormat DateFieldOrder.ymd '/' (pyStrip s.toList) = some d →
      parse_date (some s) n = (some d,
        [⟨n, some "Date", ValidationSeverity.info,
          "Date parsed with alternative format \x27%Y/%m/%d\x27",
          some (String.mk (pyStrip s.toList))⟩])) ∧
    (∀ d, matchDateFormat DateFieldOrder.ymd '-' (pyStrip s.toList) =
        none →
      matchDateFormat DateFieldOrder.mdy '/' (pyStrip s.toList) = none →
      matchDateFormat DateFieldOrder.dmy '/' (pyStrip s.toList) = none →
      matchDateFormat DateFieldOrder.mdy '-' (pyStrip s.toList) = none →
      matchDateFormat DateFieldOrder.ymd '/' (pyStrip s.toList) = none →
      matchDateFormat DateFieldOrder.dmy '-' (pyStrip s.toList) = some d →
      parse_date (some s) n = (some d,
        [⟨n, some "Date", ValidationSeverity.info,
          "Date parsed with alternative format \x27%d-%m-%Y\x27",
          some (String.mk (pyStrip s.toList))⟩])) ∧
    (matchDateFormat DateFieldOrder.ymd '-' (pyStrip s.toList) = none →
      matchDateFormat DateFieldOrder.mdy '/' (pyStrip s.toList) = none →
      matchDateFormat DateFieldOrder.dmy '/' (pyStrip s.toList) = none →
      matchDateFormat DateFieldOrder.mdy '-' (pyStrip s.toList) = none →
      matchDateFormat DateFieldOrder.ymd '/' (pyStrip s.toList) = none →
      matchDateFormat DateFieldOrder.dmy '-' (pyStrip s.toList) = none →
      parse_date (some s) n = (none,
        [⟨n, some "Date", ValidationSeverity.error,
          "Invalid date format. Expected YYYY-MM-DD, got \x27" ++
            String.mk (pyStrip s.toList) ++ "\x27",
          some (String.mk (pyStrip s.toList))⟩])) := by
  have hne2 : ¬(pyStrip s.data = []) := hne
  refine ⟨?_, ?_, ?_, ?_, ?_, ?_, ?_⟩
  · intro d h0
    have h0' : matchDateFormat DateFieldOrder.ymd '-' (pyStrip s.data) =
      some d := h0
    simp [parse_date, hne2, h0']
  · intro d h0 h1
    have h0' : matchDateFormat DateFieldOrder.ymd '-' (pyStrip s.data) =
      none := h0
    have h1' : matchDateFormat DateFieldOrder.mdy '/' (pyStrip s.data) =
      some d := h1
    simp [parse_date, hne2, h0', h1', tryAlternativeFormats,
      alternative_formats]
  · intro d h0 h1 h2
    have h0' : matchDateFormat DateFieldOrder.ymd '-' (pyStrip s.data) =
      none := h0
    have h1' : matchDateFormat DateFieldOrder.mdy '/' (pyStrip s.data) =
      none := h1
    have h2' : matchDateFormat DateFieldOrder.dmy '/' (pyStrip s.data) =
      some d := h2
    simp [parse_date, hne2, h0', h1', h2', tryAlternativeFormats,
      alternative_formats]
  · intro d h0 h1 h2 h3
    have h0' : matchDateFormat DateFieldOrder.ymd '-' (pyStrip s.data) =
      none := h0
    have h1' : matchDateFormat DateFieldOrder.mdy '/' (pyStrip s.data) =
      none := h1
    have h2' : matchDateFormat DateFieldOrder.dmy '/' (pyStrip s.data) =
      none := h2
    have h3' : matchDateFormat DateFieldOrder.mdy '-' (pyStrip s.data) =
      some d := h3
    simp [parse_date, hne2, h0', h1', h2', h3', tryAlternativeFormats,
      alternative_formats]
  · intro d h0 h1 h2 h3 h4
    have h0' : matchDateFormat DateFieldOrder.ymd '-' (pyStrip s.data) =
      none := h0
    have h1' : matchDateFormat DateFieldOrder.mdy '/' (pyStrip s.data) =
      none := h1
    have h2' : matchDateFormat DateFieldOrder.dmy '/' (pyStrip s.data) =
      none := h2
    have h3' : matchDateFormat DateFieldOrder.mdy '-' (pyStrip s.data) =
      none := h3
    have h4' : matchDateFormat DateFieldOrder.ymd '/' (pyStrip s.data) =
      some d := h4
    simp [parse_date, hne2, h0', h1', h2', h3', h4',
      tryAlternativeFormats, alternative_formats]
  · intro d h0 h1 h2 h3 h4 h5
    have h0' : matchDateFormat DateFieldOrder.ymd '-' (pyStrip s.data) =
      none := h0
    have h1' : matchDateFormat DateFieldOrder.mdy '/' (pyStrip s.data) =
      none := h1
    have h2' : matchDateFormat DateFieldOrder.dmy '/' (pyStrip s.data) =
      none := h2
    have h3' : matchDateFormat DateFieldOrder.mdy '-' (pyStrip s.data) =
      none := h3
    have h4' : matchDateFormat DateFieldOrder.ymd '/' (pyStrip s.data) =
      none := h4
    have h5' : matchDateFormat DateFieldOrder.dmy '-' (pyStrip s.data) =
      some d := h5
    simp [parse_date, hne2, h0', h1', h2', h3', h4', h5',
      tryAlternativeFormats, alternative_formats]
  · intro h0 h1 h2 h3 h4 h5
    have h0' : matchDateFormat DateFieldOrder.ymd '-' (pyStrip s.data) =
      none := h0
    have h1' : matchDateFormat DateFieldOrder.mdy '/' (pyStrip s.data) =
      none := h1
    have h2' : matchDateFormat DateFieldOrder.dmy '/' (pyStrip s.data) =
      none := h2
    have h3' : matchDateFormat DateFieldOrder.mdy '-' (pyStrip s.data) =
      none := h3
    have h4' : matchDateFormat DateFieldOrder.ymd '/' (pyStrip s.data) =
      none := h4
    have h5' : matchDateFormat DateFieldOrder.dmy '-' (pyStrip s.data) =
      none := h5
    simp [parse_date, hne2, h0', h1', h2', h3', h4', h5',
      tryAlternativeFormats, alternative_formats]

theorem process_csv_ok_shape (strict : Bool) (b : String) (a : Nat)
    (table : RawTable) (res : ProcessingResult)
    (h : process_csv strict b a table = Except.ok res) :
    ∃ T S I si,
      validate_structure table.ncols table.rows = Except.ok si ∧
      transform_go strict a b table.rows 0 [] 0 si = Except.ok (T, S, I) ∧
      res = ⟨true, T, b, table.rows.length, T.length, S, I,
        generate_summary T⟩ := by
  unfold process_csv at h
  cases hv : validate_structure table.ncols table.rows with
  | error e =>
    rw [hv] at h
    simp at h
  | ok si =>
    rw [hv] at h
    dsimp only at h
    unfold transform_data at h
    cases ht : transform_go strict a b table.rows 0 [] 0 si with
    | error e =>
      rw [ht] at h
      simp at h
    | ok triple =>
      obtain ⟨T, S, I⟩ := triple
      rw [ht] at h
      dsimp only at h
      injection h with h2
      exact ⟨T, S, I, si, rfl, ht, h2.symm⟩

theorem validate_structure_row0 (ncols : Nat)
    (rows : List (List (Option String))) (si : List ValidationIssue)
    (h : validate_structure ncols rows = Except.ok si) :
    ∀ i ∈ si, i.row_number = 0 := by
  revert h
  unfold validate_structure
  repeat' split
  all_goals intro h
  all_goals
    first
    | (simp_all; done)
    | (injection h with h2; rw [← h2]; simp)

/-- Claim C10: every successful invocation accounts for every input row
exactly once: the processed row count plus the skipped row count equals
the total row count, the processed count is the number of returned
transaction drafts, and the total is the number of rows of the decoded
table. -/
theorem row_accounting (strict : Bool) (b : String) (a : Nat)
    (table : RawTable) (res : ProcessingResult)
    (h : process_csv strict b a table = Except.ok res) :
    res.processed_rows + res.skipped_rows = res.total_rows ∧
    res.processed_rows = res.transactions.length ∧
    res.total_rows = table.rows.length := by
  obtain ⟨T, S, I, si, hv, ht, hres⟩ :=
    process_csv_ok_shape strict b a table res h
  have hc := transform_go_ok_counts strict a b table.rows 0 [] 0 si T S I ht
  simp only [List.length_nil] at hc
  subst hres
  refine ⟨?_, rfl, rfl⟩
  simp only
  omega

/-- Claim C8: every draft in a successful result carries the batch
identifier of that invocation, equal to the result batch identifier; the
identifier is the one generated at the start of the invocation (modelled
as the explicit batch_id input), and two invocations given distinct fresh
identifiers return results with distinct batch identifiers. -/
theorem batch_id_uniform (strict : Bool) (b : String) (a : Nat)
    (table : RawTable) (res : ProcessingResult)
    (h : process_csv strict b a table = Except.ok res) :
    res.batch_id = b ∧
    (∀ t ∈ res.transactions, t.import_batch_id = b) ∧
    (∀ (b2 : String) (res2 : ProcessingResult),
      process_csv strict b2 a table = Except.ok res2 → b ≠ b2 →
      res.batch_id ≠ res2.batch_id) := by
  obtain ⟨T, S, I, si, hv, ht, hres⟩ :=
    process_csv_ok_shape strict b a table res h
  refine ⟨by rw [hres], ?_, ?_⟩
  · intro t htm
    have hT := transform_go_ok_batch strict a b table.rows 0 [] 0 si T S I
      ht (by simp)
    have : t ∈ T := by
      rw [hres] at htm
      exact htm
    exact hT t this
  · intro b2 res2 h2 hneq
    obtain ⟨T2, S2, I2, si2, hv2, ht2, hres2⟩ :=
      process_csv_ok_shape strict b2 a table res2 h2
    rw [hres, hres2]
    simpa using hneq

theorem process_csv_batch_map (strict : Bool) (b c : String) (a : Nat)
    (table : RawTable) :
    process_csv strict b a table = Except.map (fun res =>
      ⟨res.success, res.transactions.map (fun t => withBatch t b), b,
        res.total_rows, res.processed_rows, res.skipped_rows, res.issues,
        res.summary⟩) (process_csv strict c a table) := by
  unfold process_csv
  cases hv : validate_structure table.ncols table.rows with
  | error e => simp [Except.map]
  | ok si =>
    dsimp only
    unfold transform_data
    have hb := transform_go_batch strict a b c table.rows 0 [] 0 si
    simp only [List.map_nil] at hb
    rw [hb]
    cases hc : transform_go strict a c table.rows 0 [] 0 si with
    | error e => simp [Except.map]
    | ok triple =>
      obtain ⟨T, S, I⟩ := triple
      simp [Except.map, generate_summary_map_withBatch, List.length_map]

/-- Claim C9: on the same decoded table, mode and account, two invocations
differing only in their fresh batch identifiers either fail with the same
typed error or succeed with results equal in every component except the
batch identifier: the draft lists agree after the batch field is erased,
and every other field, the summary included, coincides; distinct supplied
identifiers give distinct result identifiers. -/
theorem pipeline_deterministic_up_to_batch (strict : Bool)
    (b1 b2 : String) (a : Nat) (table : RawTable) :
    (∀ e, process_csv strict b1 a table = Except.error e ↔
      process_csv strict b2 a table = Except.error e) ∧
    (∀ r1 r2, process_csv strict b1 a table = Except.ok r1 →
      process_csv strict b2 a table = Except.ok r2 →
      r1.transactions.map (fun t => withBatch t "") =
        r2.transactions.map (fun t => withBatch t "") ∧
      r1.batch_id = b1 ∧ r2.batch_id = b2 ∧
      r1.success = r2.success ∧
      r1.total_rows = r2.total_rows ∧
      r1.processed_rows = r2.processed_rows ∧
      r1.skipped_rows = r2.skipped_rows ∧
      r1.issues = r2.issues ∧
      r1.summary = r2.summary ∧
      (b1 ≠ b2 → r1.batch_id ≠ r2.batch_id)) := by
  have hmap := process_csv_batch_map strict b1 b2 a table
  constructor
  · intro e
    cases hc : process_csv strict b2 a table with
    | error e2 =>
      rw [hc] at hmap
      simp [Except.map] at hmap
      rw [hmap]
    | ok r =>
      rw [hc] at hmap
      simp [Except.map] at hmap
      rw [hmap]
      constructor
      · intro hcontra
        simp at hcontra
      · intro hcontra
        simp at hcontra
  · intro r1 r2 h1 h2
    rw [h2] at hmap
    simp [Except.map] at hmap
    rw [h1] at hmap
    injection hmap with hmap2
    rw [hmap2]
    refine ⟨?_, rfl, ?_, rfl, rfl, rfl, rfl, rfl, rfl, ?_⟩
    · simp [List.map_map, Function.comp, withBatch_withBatch]
    · obtain ⟨T2, S2, I2, si2, hv2, ht2, hres2⟩ :=
        process_csv_ok_shape strict b2 a table r2 h2
      rw [hres2]
    · intro hne
      obtain ⟨T2, S2, I2, si2, hv2, ht2, hres2⟩ :=
        process_csv_ok_shape strict b2 a table r2 h2
      rw [hres2]
      simpa using hne

theorem skippedCount_pos (a : Nat) (b : String) :
    ∀ (rows : List (List (Option String))) (idx k : Nat)
      (hk : k < rows.length),
    (process_row (rows.get ⟨k, hk⟩) (idx + k + 1) a b).1 = none →
    1 ≤ skippedCount a b rows idx := by
  intro rows
  induction rows with
  | nil =>
    intro idx k hk
    simp at hk
  | cons r rest ih =>
    intro idx k hk hfail
    cases k with
    | zero =>
      simp only [List.get] at hfail
      rw [show idx + 0 + 1 = idx + 1 from by omega] at hfail
      simp only [skippedCount, hfail]
      simp
    | succ k2 =>
      have hk2 : k2 < rest.length := by simpa using hk
      have hget : (r :: rest).get ⟨k2 + 1, hk⟩ = rest.get ⟨k2, hk2⟩ :=
        List.get_cons_succ
      have hfail2 : (process_row (rest.get ⟨k2, hk2⟩)
          ((idx + 1) + k2 + 1) a b).1 = none := by
        rw [show (idx + 1) + k2 + 1 = idx + (k2 + 1) + 1 from by omega,
          ← hget]
        exact hfail
      have := ih (idx + 1) k2 hk2 hfail2
      simp only [skippedCount]
      omega

/-- Claim C1: when some row produces an Error-severity issue (equivalent
here to the row transformer rejecting the row) and it is the first such
row, the strict invocation aborts with a ValidationError naming that row
and the message of its first Error issue, returning no ProcessingResult
(earlier accepted drafts are discarded with it), while the lenient
invocation on the same input returns a ProcessingResult that merely skips
the offending rows and keeps processing the remaining rows. -/
theorem strict_abort_lenient_skip (table : RawTable) (a : Nat) (b : String)
    (k : Nat) (hk : k < table.rows.length) (hcols : 4 ≤ table.ncols)
    (hfail : (process_row (table.rows.get ⟨k, hk⟩) (k + 1) a b).1 = none)
    (hmin : ∀ j (hj : j < table.rows.length), j < k →
      (process_row (table.rows.get ⟨j, hj⟩) (j + 1) a b).1 ≠ none) :
    (∃ e, (process_row (table.rows.get ⟨k, hk⟩) (k + 1) a b).2.find?
        (fun i => decide (i.severity = ValidationSeverity.error)) =
        some e ∧
      process_csv true b a table = Except.error (CSVError.validationError
        ("Row " ++ toString (k + 1) ++ ": " ++ e.message))) ∧
    (∃ res, process_csv false b a table = Except.ok res ∧
      res.transactions = acceptedDrafts a b table.rows 0 ∧
      res.skipped_rows = skippedCount a b table.rows 0 ∧
      1 ≤ res.skipped_rows ∧
      res.total_rows = table.rows.length) := by
  have hrowsne : ¬(table.rows = []) := by
    intro hE
    rw [hE] at hk
    simp at hk
  have hncols : ¬(table.ncols < 4) := by omega
  have hval : validate_structure table.ncols table.rows = Except.ok
      (if 4 < table.ncols then
        [⟨0, none, ValidationSeverity.warning,
          "CSV has " ++ toString table.ncols ++ " columns, expected 4. " ++
            "Extra columns will be ignored.", none⟩]
      else []) := by
    simp [validate_structure, hncols, hrowsne]
  have hrow0 := validate_structure_row0 table.ncols table.rows _ hval
  have hiss : ∀ i ∈ (if 4 < table.ncols then
      [(⟨0, none, ValidationSeverity.warning,
        "CSV has " ++ toString table.ncols ++ " columns, expected 4. " ++
          "Extra columns will be ignored.", none⟩ : ValidationIssue)]
      else []), i.row_number ≤ 0 := by
    intro i hi
    rw [hrow0 i hi]
  have hfail0 : (process_row (table.rows.get ⟨k, hk⟩) (0 + k + 1) a b).1 =
      none := by
    rw [show 0 + k + 1 = k + 1 from by omega]
    exact hfail
  have hmin0 : ∀ j (hj : j < table.rows.length), j < k →
      (process_row (table.rows.get ⟨j, hj⟩) (0 + j + 1) a b).1 ≠ none := by
    intro j hj hjk
    rw [show 0 + j + 1 = j + 1 from by omega]
    exact hmin j hj hjk
  obtain ⟨e, hfe, hgo⟩ := transform_go_strict_abort a b k table.rows 0 []
    0 _ hk hiss hfail0 hmin0
  rw [show 0 + k + 1 = k + 1 from by omega] at hfe hgo
  constructor
  · refine ⟨e, hfe, ?_⟩
    unfold process_csv
    rw [hval]
    dsimp only
    unfold transform_data
    rw [hgo]
  · have hlen := transform_go_lenient a b table.rows 0 [] 0
      (if 4 < table.ncols then
        [⟨0, none, ValidationSeverity.warning,
          "CSV has " ++ toString table.ncols ++ " columns, expected 4. " ++
            "Extra columns will be ignored.", none⟩]
      else [])
    refine ⟨⟨true, acceptedDrafts a b table.rows 0, b,
      table.rows.length, (acceptedDrafts a b table.rows 0).length,
      skippedCount a b table.rows 0,
      (if 4 < table.ncols then
        [⟨0, none, ValidationSeverity.warning,
          "CSV has " ++ toString table.ncols ++ " columns, expected 4. " ++
            "Extra columns will be ignored.", none⟩]
      else []) ++ allRowIssues a b table.rows 0,
      generate_summary (acceptedDrafts a b table.rows 0)⟩,
      ?_, rfl, rfl, ?_, rfl⟩
    · unfold process_csv
      rw [hval]
      dsimp only
      unfold transform_data
      rw [hlen]
      simp
    · exact skippedCount_pos a b table.rows 0 k hk hfail0

/-- Sample well-formed row used by the witnesses. -/
def wRowGood : List (Option String) :=
  [some "2024-01-15", some "Grocery Store", some "50.00", some "0.00"]

/-- Sample row with an unparseable date used by the witnesses. -/
def wRowBad : List (Option String) :=
  [some "bad-date", some "X", some "1.00", none]

/-- Sample one-row table used by the witnesses. -/
def wTable4 : RawTable := ⟨4, [wRowGood]⟩

/-- Sample two-row table whose second row fails, used by the witnesses. -/
def wTable : RawTable := ⟨4, [wRowGood, wRowBad]⟩

/-- The draft produced from the sample row under batch B. -/
def wDraft : TransactionDraft :=
  ⟨1, ⟨2024, 1, 15⟩, "Grocery Store", -5000, "Uncategorized", false, "B"⟩

/-- The result of the lenient sample invocation under batch B. -/
def wRes : ProcessingResult :=
  ⟨true, [wDraft], "B", 1, 1, 0, [],
    ⟨0, 5000, -5000, some (⟨2024, 1, 15⟩, ⟨2024, 1, 15⟩), 1⟩⟩

/-- The draft produced from the sample row under batch C. -/
def wDraftC : TransactionDraft :=
  ⟨1, ⟨2024, 1, 15⟩, "Grocery Store", -5000, "Uncategorized", false, "C"⟩

/-- The result of the lenient sample invocation under batch C. -/
def wResC : ProcessingResult :=
  ⟨true, [wDraftC], "C", 1, 1, 0, [],
    ⟨0, 5000, -5000, some (⟨2024, 1, 15⟩, ⟨2024, 1, 15⟩), 1⟩⟩

/-- Sample accepted drafts used by the summary witness. -/
def wT1 : TransactionDraft :=
  ⟨1, ⟨2024, 1, 15⟩, "A", 300000, "Uncategorized", false, "B"⟩

/-- Sample accepted expense draft used by the summary witness. -/
def wT2 : TransactionDraft :=
  ⟨1, ⟨2024, 1, 16⟩, "Bx", -5000, "Uncategorized", false, "B"⟩

/-- Witness for claim C1 at a concrete table whose second row has an
invalid date: strict mode aborts naming row 2 and the date message, and
the lenient run skips at least one row. -/
theorem strict_abort_lenient_skip_witness :
    process_csv true "B" 1 wTable = Except.error (CSVError.validationError
      ("Row " ++ toString (1 + 1) ++ ": " ++
        "Invalid date format. Expected YYYY-MM-DD, got \x27bad-date\x27")) ∧
    1 ≤ skippedCount 1 "B" wTable.rows 0 := by
  have h := strict_abort_lenient_skip wTable 1 "B" 1 (by decide) (by decide)
    (by decide) (by
      intro j hj hj1
      have hj0 : j = 0 := by omega
      subst hj0
      have hgetw : wTable.rows.get ⟨0, hj⟩ = wRowGood := rfl
      rw [hgetw]
      decide)
  obtain ⟨⟨e, hfe, habort⟩, ⟨res, hres, htx, hskip, hpos, htot⟩⟩ := h
  have he : e = ⟨2, some "Date", ValidationSeverity.error,
      "Invalid date format. Expected YYYY-MM-DD, got \x27bad-date\x27",
      some "bad-date"⟩ := by
    have hconc : (process_row (wTable.rows.get ⟨1, by decide⟩) (1 + 1) 1
        "B").2.find?
        (fun i => decide (i.severity = ValidationSeverity.error)) =
        some ⟨2, some "Date", ValidationSeverity.error,
          "Invalid date format. Expected YYYY-MM-DD, got \x27bad-date\x27",
          some "bad-date"⟩ := by decide
    rw [hconc] at hfe
    exact (Option.some.inj hfe).symm
  constructor
  · rw [he] at habort
    exact habort
  · rw [hskip] at hpos
    exact hpos

/-- Witness for claim C2 at the spec example: a parenthesised debit of
50.00 with a credit of 0.00 yields the positive amount +50.00. -/
theorem amount_credit_minus_debit_witness :
    (parse_monetary_value (some "(50.00)") "Debit" 3).1 = some (-5000) ∧
    (parse_monetary_value (some "0.00") "Credit" 3).1 = some 0 ∧
    (calculate_amount (some "(50.00)") (some "0.00") 3).1 = some 5000 := by
  refine ⟨by decide, by decide, ?_⟩
  have h := (amount_credit_minus_debit (some "(50.00)") (some "0.00") 3
    (-5000) 0 (by decide) (by decide)).1
  rw [show ((0 : Int) - (-5000)) = 5000 from by decide] at h
  exact h

/-- Witness for the amended claim C3 at the cell "(-50.00)": the result is
the negative value -50.00. -/
theorem paren_minus_single_negation_witness :
    (parse_monetary_value (some "(-50.00)") "Debit" 2).1 =
      some (-(5000 : Int)) :=
  paren_minus_single_negation "(-50.00)" "Debit" 2 5000 (by decide)
    (by decide) (by decide)

/-- Witness for claim C4 at the cell 01/15/2024: the primary format fails,
the first fallback MM/DD/YYYY matches, and exactly one Info issue naming
that format is emitted. -/
theorem date_fallback_order_witness :
    parse_date (some "01/15/2024") 1 = (some ⟨2024, 1, 15⟩,
      [⟨1, some "Date", ValidationSeverity.info,
        "Date parsed with alternative format \x27%m/%d/%Y\x27",
        some (String.mk (pyStrip "01/15/2024".toList))⟩]) :=
  (date_fallback_order "01/15/2024" 1 (by decide)).2.1 ⟨2024, 1, 15⟩
    (by decide) (by decide)

/-- Witness for claim C5 at concrete tables: three columns abort with a
ColumnError, an empty five-column table aborts with the ValidationError,
and a four-column one-row table validates with no issue. -/
theorem structural_validation_witness :
    process_csv false "B" 1 (⟨3, [[some "x"]]⟩ : RawTable) =
      Except.error (CSVError.columnError
        ("CSV must have at least 4 columns, found " ++ toString 3 ++
          ". Expected: Date, Description, Debit, Credit")) ∧
    process_csv false "B" 1 (⟨5, []⟩ : RawTable) =
      Except.error (CSVError.validationError
        "CSV file contains no data rows") ∧
    validate_structure wTable4.ncols wTable4.rows = Except.ok [] := by
  refine ⟨?_, ?_, ?_⟩
  · exact (structural_validation ⟨3, [[some "x"]]⟩ false "B" 1).1
      (by decide)
  · exact (structural_validation ⟨5, []⟩ false "B" 1).2.1 (by decide) rfl
  · exact (structural_validation wTable4 false "B" 1).2.2.2.1 (by decide)
      (by decide)

/-- Witness for claim C6 at a two-draft list with one income of 3000.00
and one expense of 50.00, and at the empty list. -/
theorem summary_totals_witness :
    generate_summary [] = ⟨0, 0, 0, none, 0⟩ ∧
    (generate_summary [wT1, wT2]).net_amount =
      (generate_summary [wT1, wT2]).total_income -
        (generate_summary [wT1, wT2]).total_expenses ∧
    (generate_summary [wT1, wT2]).transaction_count = 2 := by
  have h := (summary_totals [wT1, wT2]).2 (by simp)
  exact ⟨(summary_totals []).1 rfl, h.2.2.1, h.2.2.2.1⟩

/-- Witness for claim C7 at a missing cell, a blank cell and an ordinary
cell. -/
theorem description_never_fails_witness :
    parse_description none 2 = (some "No description",
      [⟨2, some "Description", ValidationSeverity.warning,
        "Description is empty, using \x27No description\x27",
        some "nan"⟩]) ∧
    parse_description (some "") 2 = (some "No description",
      [⟨2, some "Description", ValidationSeverity.warning,
        "Description is empty, using \x27No description\x27",
        some ""⟩]) ∧
    parse_description (some " hi ") 2 =
      (some (String.mk (pyStrip " hi ".toList)), []) := by
  refine ⟨?_, ?_, ?_⟩
  · exact (description_never_fails none 2).2.1 rfl
  · exact (description_never_fails (some "") 2).2.2.1 "" rfl (by decide)
  · exact (description_never_fails (some " hi ") 2).2.2.2.2 " hi " rfl
      (by decide) (by decide)

/-- Witness for claim C8 at the sample table: the returned result carries
batch B and so does its single draft. -/
theorem batch_id_uniform_witness :
    process_csv false "B" 1 wTable4 = Except.ok wRes ∧
    wRes.batch_id = "B" ∧ wDraft.import_batch_id = "B" := by
  refine ⟨by decide, ?_, ?_⟩
  · exact (batch_id_uniform false "B" 1 wTable4 wRes (by decide)).1
  · exact (batch_id_uniform false "B" 1 wTable4 wRes (by decide)).2.1
      wDraft (by simp [wRes])

/-- Witness for claim C9: the sample invocations under batches B and C
agree on the batch-erased drafts and carry the two distinct batch
identifiers. -/
theorem pipeline_deterministic_up_to_batch_witness :
    wRes.transactions.map (fun t => withBatch t "") =
      wResC.transactions.map (fun t => withBatch t "") ∧
    wRes.batch_id ≠ wResC.batch_id := by
  obtain ⟨h1, h2, h3, h4, h5, h6, h7, h8, h9, h10⟩ :=
    (pipeline_deterministic_up_to_batch false "B" "C" 1 wTable4).2
      wRes wResC (by decide) (by decide)
  exact ⟨h1, h10 (by decide)⟩

/-- Witness for claim C10 at the sample table: one processed row, zero
skipped rows, one total row. -/
theorem row_accounting_witness :
    wRes.processed_rows + wRes.skipped_rows = wRes.total_rows ∧
    wRes.processed_rows = wRes.transactions.length ∧
    wRes.total_rows = wTable4.rows.length :=
  row_accounting false "B" 1 wTable4 wRes (by decide)

end BudgetCSV
